import Mathlib

/-!
Verification of the session-accounting core of the time-tracking bot.

The Python class `TimeTracker` (src/time_tracker.py) keeps, per user, a record
with accumulated seconds, activity flags, a pause counter, milestone bookkeeping
and a session history, persisted as JSON.  Every public operation touches only
the record of the user it is given (plus the bulk operations, not needed here),
so we embed the store as `Option UserRecord`: the record of one fixed user,
`none` when the user has no record.  Timestamps (`datetime.now()`) become an
explicit `now : Int` argument; durations are `Int` seconds.  Each mutator
returns an `OpResult` carrying the boolean the Python method returns, the new
record state, and whether `save_data` was called on that path.
-/

/-- One closed session appended by `stop_tracking` (Python dict keys
`start`, `end`, `duration`). -/
structure Session where
  start : Option Int
  finish : Int
  duration : Int
deriving Repr, DecidableEq

/-- The per-user record of `TimeTracker.data` (src/time_tracker.py).
Optional fields model dict keys that may be absent (`last_start`,
`pause_start`, `last_milestone_check`). -/
structure UserRecord where
  name : String
  total_time : Int
  sessions : List Session
  is_active : Bool
  is_paused : Bool
  pause_count : Nat
  notified_milestones : List Int
  milestone_completed : Bool
  last_start : Option Int
  pause_start : Option Int
  last_milestone_check : Option Int
deriving Repr, DecidableEq

/-- Result of a mutator: the boolean returned, the record state afterwards,
and whether the method reached `save_data`. -/
structure OpResult where
  ok : Bool
  state : Option UserRecord
  saved : Bool
deriving Repr, DecidableEq

/-- The fresh record inserted by `start_tracking` / `add_minutes` when the
user is absent from the store. -/
def freshRecord (user_name : String) : UserRecord :=
  { name := user_name
    total_time := 0
    sessions := []
    is_active := false
    is_paused := false
    pause_count := 0
    notified_milestones := []
    milestone_completed := false
    last_start := none
    pause_start := none
    last_milestone_check := none }

/-- `TimeTracker.start_tracking` (src/time_tracker.py:31).  Inserts a fresh
record when absent, refuses when active or paused, otherwise marks active,
stamps `last_start`, updates the display name and saves. -/
def start_tracking (now : Int) (user_name : String) (st : Option UserRecord) : OpResult :=
  let r := st.getD (freshRecord user_name)
  if r.is_active then ⟨false, some r, false⟩
  else if r.is_paused then ⟨false, some r, false⟩
  else ⟨true, some { r with is_active := true, is_paused := false,
                            last_start := some now, name := user_name }, true⟩

/-- `TimeTracker.stop_tracking` (src/time_tracker.py:67).  Fails when the
record is absent or not active; otherwise folds `now - last_start` into
`total_time` (when `last_start` is set), clears both activity flags, appends
a history entry and saves.  Note: `last_start` is NOT removed. -/
def stop_tracking (now : Int) (st : Option UserRecord) : OpResult :=
  match st with
  | none => ⟨false, none, false⟩
  | some r =>
    if !r.is_active then ⟨false, some r, false⟩
    else
      let r1 := match r.last_start with
        | some s => { r with total_time := r.total_time + (now - s) }
        | none => r
      let entry : Session :=
        { start := r.last_start
          finish := now
          duration := match r.last_start with
            | some s => now - s
            | none => 0 }
      ⟨true, some { r1 with is_active := false, is_paused := false,
                            sessions := r1.sessions ++ [entry] }, true⟩

/-- `TimeTracker.pause_tracking` (src/time_tracker.py:105).  Fails when the
record is absent or not active; otherwise folds the elapsed session into
`total_time`, marks paused, stamps `pause_start`, increments `pause_count`
and saves.  It performs no cancellation itself, whatever the count. -/
def pause_tracking (now : Int) (st : Option UserRecord) : OpResult :=
  match st with
  | none => ⟨false, none, false⟩
  | some r =>
    if !r.is_active then ⟨false, some r, false⟩
    else
      let r1 := match r.last_start with
        | some s => { r with total_time := r.total_time + (now - s) }
        | none => r
      ⟨true, some { r1 with is_active := false, is_paused := true,
                            pause_start := some now,
                            pause_count := r1.pause_count + 1 }, true⟩

/-- `TimeTracker.resume_tracking` (src/time_tracker.py:132).  Fails when the
record is absent or not paused; otherwise marks active, stamps a new
`last_start`, removes `pause_start` and saves. -/
def resume_tracking (now : Int) (st : Option UserRecord) : OpResult :=
  match st with
  | none => ⟨false, none, false⟩
  | some r =>
    if !r.is_paused then ⟨false, some r, false⟩
    else ⟨true, some { r with is_active := true, is_paused := false,
                              last_start := some now, pause_start := none }, true⟩

/-- `TimeTracker.get_total_time` (src/time_tracker.py:156).  Pure read:
`total_time`, plus `now - last_start` when active with a session start;
0 for an unknown user. -/
def get_total_time (now : Int) (st : Option UserRecord) : Int :=
  match st with
  | none => 0
  | some r =>
    let base := r.total_time
    if r.is_active then
      match r.last_start with
      | some s => base + (now - s)
      | none => base
    else base

/-- `TimeTracker.get_pause_count` (src/time_tracker.py:277). -/
def get_pause_count (st : Option UserRecord) : Nat :=
  match st with
  | none => 0
  | some r => r.pause_count

/-- `TimeTracker.reset_user_time` (src/time_tracker.py:183).  Zeroes the
accumulators in place, forces inactive, deletes both markers, saves. -/
def reset_user_time (st : Option UserRecord) : OpResult :=
  match st with
  | none => ⟨false, none, false⟩
  | some r =>
    ⟨true, some { r with total_time := 0, is_active := false, is_paused := false,
                         pause_count := 0, sessions := [],
                         notified_milestones := [], milestone_completed := false,
                         last_start := none, pause_start := none }, true⟩

/-- `TimeTracker.cancel_user_tracking` (src/time_tracker.py:217).  Removes
the record entirely. -/
def cancel_user_tracking (st : Option UserRecord) : OpResult :=
  match st with
  | none => ⟨false, none, false⟩
  | some _ => ⟨true, none, true⟩

/-- `TimeTracker.add_minutes` (src/time_tracker.py:239).  Creates the record
when absent, then unconditionally adds `minutes * 60` to `total_time` —
the Python method never inspects the sign of `minutes`. -/
def add_minutes (user_name : String) (minutes : Int) (st : Option UserRecord) : OpResult :=
  let r := st.getD (freshRecord user_name)
  ⟨true, some { r with total_time := r.total_time + minutes * 60,
                       name := user_name }, true⟩

/-- `TimeTracker.subtract_minutes` (src/time_tracker.py:262).  Fails when the
record is absent; otherwise sets `total_time` to
`max 0 (total_time - minutes * 60)` — the sign of `minutes` is not checked. -/
def subtract_minutes (minutes : Int) (st : Option UserRecord) : OpResult :=
  match st with
  | none => ⟨false, none, false⟩
  | some r =>
    ⟨true, some { r with total_time := max 0 (r.total_time - minutes * 60) }, true⟩

/-- Pluralization used by `format_time_human`: the Python expression
`'s' if n != 1 else ''`. -/
def pluralS (n : Nat) : String := if n != 1 then "s" else ""

/-- `TimeTracker.format_time_human` (src/time_tracker.py:299).  Negative
input yields the zero string; otherwise hours, minutes, seconds parts in
that order, seconds shown when nonzero or when no other part exists. -/
def format_time_human (seconds : Int) : String :=
  if seconds < 0 then "0 Segundos"
  else
    let s := seconds.toNat
    let hours := s / 3600
    let minutes := s % 3600 / 60
    let secs := s % 60
    let parts : List String := []
    let parts := if hours > 0 then parts ++ [toString hours ++ " Hora" ++ pluralS hours] else parts
    let parts := if minutes > 0 then parts ++ [toString minutes ++ " Minuto" ++ pluralS minutes] else parts
    let parts := if secs > 0 || parts.isEmpty then parts ++ [toString secs ++ " Segundo" ++ pluralS secs] else parts
    String.intercalate ", " parts

/-- `calculate_credits` (src/bot.py:188).  Negative input yields 0; then
`total_seconds / 3600 >= 2.0` is 5 credits, `>= 1.0` is 3, else 0.  The
`has_special_role` parameter is never read. -/
def calculate_credits (total_seconds : Int) (has_special_role : Bool) : Int :=
  if total_seconds < 0 then 0
  else if 7200 ≤ total_seconds then 5
  else if 3600 ≤ total_seconds then 3
  else 0

/-- The three ways the `pausar_tiempo` command handler concludes a request. -/
inductive PauseOutcome where
  | noActive
  | pausedNotice
  | autoCancelled
deriving Repr, DecidableEq

/-- The ledger-facing flow of the `pausar_tiempo` handler (src/bot.py:283):
call `pause_tracking`; on success read `get_pause_count`, and when it is at
least 3 call `cancel_user_tracking` and emit the auto-cancellation
notice, otherwise emit the normal pause notice. -/
def pausar_tiempo (now : Int) (st : Option UserRecord) : Option UserRecord × PauseOutcome :=
  let res := pause_tracking now st
  if res.ok then
    let pc := get_pause_count res.state
    if 3 ≤ pc then
      let res2 := cancel_user_tracking res.state
      (res2.state, PauseOutcome.autoCancelled)
    else (res.state, PauseOutcome.pausedNotice)
  else (res.state, PauseOutcome.noActive)

/-- The hour indices `1 .. n`, i.e. the Python `range(1, total_hours + 1)`. -/
def hoursUpTo (n : Nat) : List Nat := (List.range n).map (fun i => i + 1)

/-- The per-user body of `check_missing_milestones` (src/bot.py:1113), for one
tracked user.  Computes the whole hours of `get_total_time`, collects the
hour thresholds `h * 3600` not yet in `notified_milestones`; when some are
missing it appends them all to `notified_milestones`, calls `stop_tracking`,
sets `milestone_completed` for unlimited-role users, records
`last_milestone_check`, and emits one notification for the highest missing
hour.  Returns the record afterwards and the list of hour counts notified. -/
def check_missing_milestones_user (now : Int) (has_unlimited_role : Bool)
    (st : Option UserRecord) : Option UserRecord × List Nat :=
  match st with
  | none => (none, [])
  | some r =>
    let total_time := get_total_time now (some r)
    let notified := r.notified_milestones
    let total_hours := (Int.fdiv total_time 3600).toNat
    let missing := (hoursUpTo total_hours).filter
      (fun h => !(notified.contains (Int.ofNat h * 3600)))
    match missing.getLast? with
    | none => (some r, [])
    | some hours_to_notify =>
      let notified2 := missing.foldl
        (fun acc h => if acc.contains (Int.ofNat h * 3600) then acc
                      else acc ++ [Int.ofNat h * 3600]) notified
      let st1 : Option UserRecord := some { r with notified_milestones := notified2 }
      let st2 := (stop_tracking now st1).state
      let st3 := if has_unlimited_role then
          match st2 with
          | some r2 => some { r2 with milestone_completed := true }
          | none => none
        else st2
      let st4 := match st3 with
        | some r3 => some { r3 with last_milestone_check := some total_time }
        | none => none
      (st4, [hours_to_notify])

/-- The ledger operations, each carrying the arguments the Python method
takes plus the timestamp it would read from the clock. -/
inductive Op where
  | start (now : Int) (user_name : String)
  | stop (now : Int)
  | pause (now : Int)
  | resume (now : Int)
  | addMinutes (user_name : String) (m : Int)
  | subtractMinutes (m : Int)
  | reset
  | cancel
deriving Repr, DecidableEq

/-- The record state after one ledger operation. -/
def applyOp (st : Option UserRecord) : Op → Option UserRecord
  | Op.start now user_name => (start_tracking now user_name st).state
  | Op.stop now => (stop_tracking now st).state
  | Op.pause now => (pause_tracking now st).state
  | Op.resume now => (resume_tracking now st).state
  | Op.addMinutes user_name m => (add_minutes user_name m st).state
  | Op.subtractMinutes m => (subtract_minutes m st).state
  | Op.reset => (reset_user_time st).state
  | Op.cancel => (cancel_user_tracking st).state

/-- The record state after a sequence of ledger operations. -/
def run (ops : List Op) (st : Option UserRecord) : Option UserRecord :=
  ops.foldl applyOp st

/-- The `total_time` stored in a record state, 0 when no record exists. -/
def bankedOf (st : Option UserRecord) : Int :=
  match st with
  | none => 0
  | some r => r.total_time

/-- Whether an operation is one of the four session operations
start / stop / pause / resume. -/
def isSessOp : Op → Bool
  | Op.start _ _ => true
  | Op.stop _ => true
  | Op.pause _ => true
  | Op.resume _ => true
  | _ => false

/-- The activity phase of the one tracked user, as the specification speaks
of it: Idle, Running since some instant, or Paused. -/
inductive Phase where
  | idle
  | running (since : Int)
  | paused
deriving Repr, DecidableEq

/-- Modelled from the spec: the sum of the durations of all Running
intervals of a session-operation sequence — an interval opens at a
successful start or resume and closes at the next successful pause or stop;
operations that do not fit the current phase change nothing, and Paused
intervals contribute nothing. -/
def specRunningSum : Phase → List Op → Int
  | _, [] => 0
  | Phase.idle, Op.start now _ :: rest => specRunningSum (Phase.running now) rest
  | Phase.running s, Op.pause now :: rest => (now - s) + specRunningSum Phase.paused rest
  | Phase.running s, Op.stop now :: rest => (now - s) + specRunningSum Phase.idle rest
  | Phase.paused, Op.resume now :: rest => specRunningSum (Phase.running now) rest
  | p, _ :: rest => specRunningSum p rest

/-- Sample record with one thousand banked seconds and no live session. -/
def rec1000 : UserRecord := { freshRecord "a" with total_time := 1000 }

/-- Sample record with a session running since instant 0. -/
def recActive : UserRecord := { freshRecord "a" with is_active := true, last_start := some 0 }

/-- The one-user store after a start and two pause/resume cycles:
running, with `pause_count = 2`. -/
def recTwoPauses : Option UserRecord :=
  run [Op.start 0 "a", Op.pause 10, Op.resume 20, Op.pause 30, Op.resume 40] none

/-- Whether a record state holds a user that is not Running yet still
carries the `last_start` session marker. -/
def idleWithStartMarker (st : Option UserRecord) : Bool :=
  match st with
  | none => false
  | some r => !r.is_active && r.last_start.isSome

/-- Unfolding of `run` on a first operation. -/
theorem run_cons (op : Op) (rest : List Op) (st : Option UserRecord) :
    run (op :: rest) st = run rest (applyOp st op) := rfl

/-- The state-flag part of the record invariant that actually holds on the
code: Running and Paused never hold together, the pause marker is present
exactly when Paused, and Running implies the session-start marker is
present (the converse fails: stop and pause keep `last_start`). -/
def FlagsInv (st : Option UserRecord) : Prop :=
  ∀ r, st = some r →
    ¬(r.is_active = true ∧ r.is_paused = true) ∧
    (r.is_paused = true ↔ r.pause_start.isSome = true) ∧
    (r.is_active = true → r.last_start.isSome = true)

theorem flagsInv_applyOp (st : Option UserRecord) (op : Op) (h : FlagsInv st) :
    FlagsInv (applyOp st op) := by
  cases op with
  | start now nm =>
    intro r' hr'
    cases st with
    | none =>
      simp [applyOp, start_tracking, freshRecord] at hr'
      simp [← hr', freshRecord]
    | some r =>
      obtain ⟨h1, h2, h3⟩ := h r rfl
      by_cases ha : r.is_active
      · simp [applyOp, start_tracking, ha] at hr'
        exact hr' ▸ h r rfl
      · by_cases hp : r.is_paused
        · simp [applyOp, start_tracking, ha, hp] at hr'
          exact hr' ▸ h r rfl
        · simp [applyOp, start_tracking, ha, hp] at hr'
          simp [← hr']
          simp [eq_false hp] at h2
          simp [h2, hp]
  | stop now =>
    intro r' hr'
    cases st with
    | none => simp [applyOp, stop_tracking] at hr'
    | some r =>
      obtain ⟨h1, h2, h3⟩ := h r rfl
      by_cases ha : r.is_active
      · have hps : r.pause_start.isSome = false := by
          cases hpa : r.is_paused
          · simp [hpa] at h2
            simp [h2]
          · exact absurd ⟨ha, hpa⟩ h1
        cases hl : r.last_start with
        | none =>
          simp [applyOp, stop_tracking, ha, hl] at hr'
          subst hr'
          simp [hps]
        | some s =>
          simp [applyOp, stop_tracking, ha, hl] at hr'
          subst hr'
          simp [hps]
      · simp [applyOp, stop_tracking, ha] at hr'
        exact hr' ▸ h r rfl
  | pause now =>
    intro r' hr'
    cases st with
    | none => simp [applyOp, pause_tracking] at hr'
    | some r =>
      obtain ⟨h1, h2, h3⟩ := h r rfl
      by_cases ha : r.is_active
      · cases hl : r.last_start with
        | none =>
          simp [applyOp, pause_tracking, ha, hl] at hr'
          subst hr'
          simp
        | some s =>
          simp [applyOp, pause_tracking, ha, hl] at hr'
          subst hr'
          simp
      · simp [applyOp, pause_tracking, ha] at hr'
        exact hr' ▸ h r rfl
  | resume now =>
    intro r' hr'
    cases st with
    | none => simp [applyOp, resume_tracking] at hr'
    | some r =>
      obtain ⟨h1, h2, h3⟩ := h r rfl
      by_cases hp : r.is_paused
      · simp [applyOp, resume_tracking, hp] at hr'
        simp [← hr']
      · simp [applyOp, resume_tracking, hp] at hr'
        exact hr' ▸ h r rfl
  | addMinutes nm m =>
    intro r' hr'
    cases st with
    | none =>
      simp [applyOp, add_minutes, freshRecord] at hr'
      simp [← hr', freshRecord]
    | some r =>
      obtain ⟨h1, h2, h3⟩ := h r rfl
      simp [applyOp, add_minutes] at hr'
      subst hr'
      exact ⟨h1, h2, h3⟩
  | subtractMinutes m =>
    intro r' hr'
    cases st with
    | none => simp [applyOp, subtract_minutes] at hr'
    | some r =>
      obtain ⟨h1, h2, h3⟩ := h r rfl
      simp [applyOp, subtract_minutes] at hr'
      subst hr'
      exact ⟨h1, h2, h3⟩
  | reset =>
    intro r' hr'
    cases st with
    | none => simp [applyOp, reset_user_time] at hr'
    | some r =>
      simp [applyOp, reset_user_time] at hr'
      simp [← hr']
  | cancel =>
    intro r' hr'
    cases st with
    | none => simp [applyOp, cancel_user_tracking] at hr'
    | some r => simp [applyOp, cancel_user_tracking] at hr'

/-- Counterexample to claim C4: after a start at 0 and a stop at 10 the
user is no longer Running yet `last_start` is still present — stop does
not clear the session-start marker, so "present iff Running" fails. -/
theorem stop_keeps_last_start :
    idleWithStartMarker (run [Op.start 0 "a", Op.stop 10] none) = true := by decide

/-- Claim C4 as amended: in every reachable record state, Running and
Paused never hold together, the pause marker `pause_start` is present
exactly when the user is Paused, and Running implies the session-start
marker `last_start` is present; but stop and pause do NOT clear
`last_start`, which may therefore persist while Idle or Paused. -/
theorem flags_markers_invariant (ops : List Op) (st : Option UserRecord)
    (h : FlagsInv st) : FlagsInv (run ops st) := by
  induction ops generalizing st with
  | nil => exact h
  | cons op rest ih => exact ih (applyOp st op) (flagsInv_applyOp st op h)

/-- Witness for C4 (amended): the invariant after a start and a pause. -/
theorem flags_markers_invariant_witness :
    FlagsInv (run [Op.start 0 "a", Op.pause 3] none) :=
  flags_markers_invariant [Op.start 0 "a", Op.pause 3] none (fun r h => nomatch h)

/-- The stored total is non-negative whenever a record exists. -/
def TotalNonneg (st : Option UserRecord) : Prop :=
  ∀ r, st = some r → 0 ≤ r.total_time

/-- Every session-start marker in the state lies at or before instant `t`. -/
def StartsBounded (t : Int) (st : Option UserRecord) : Prop :=
  ∀ r s, st = some r → r.last_start = some s → s ≤ t

/-- The per-operation side condition of a well-timed trace: clock-reading
operations happen no earlier than the preceding instant, and `addMinutes`
gets a non-negative argument. -/
def opOk (t : Int) : Op → Prop
  | Op.start now _ => t ≤ now
  | Op.stop now => t ≤ now
  | Op.pause now => t ≤ now
  | Op.resume now => t ≤ now
  | Op.addMinutes _ m => 0 ≤ m
  | _ => True

/-- The clock instant after an operation. -/
def opNext (t : Int) : Op → Int
  | Op.start now _ => now
  | Op.stop now => now
  | Op.pause now => now
  | Op.resume now => now
  | _ => t

/-- A trace whose clock readings are non-decreasing from instant `t` and
whose `addMinutes` arguments are non-negative. -/
def ValidTrace : Int → List Op → Prop
  | _, [] => True
  | t, op :: rest => opOk t op ∧ ValidTrace (opNext t op) rest

/-- Whether an operation is one of the two that may lower the stored
total: `subtractMinutes` or `reset`. -/
def decOp : Op → Bool
  | Op.subtractMinutes _ => true
  | Op.reset => true
  | _ => false

theorem step_inv (t : Int) (op : Op) (st : Option UserRecord)
    (hok : opOk t op) (hnn : TotalNonneg st) (hsb : StartsBounded t st) :
    TotalNonneg (applyOp st op) ∧ StartsBounded (opNext t op) (applyOp st op) := by
  cases op with
  | start now nm =>
    constructor
    · intro r' hr'
      cases st with
      | none =>
        simp [applyOp, start_tracking, freshRecord] at hr'
        simp [← hr', freshRecord]
      | some r =>
        by_cases ha : r.is_active
        · simp [applyOp, start_tracking, ha] at hr'
          exact hr' ▸ hnn r rfl
        · by_cases hp : r.is_paused
          · simp [applyOp, start_tracking, ha, hp] at hr'
            exact hr' ▸ hnn r rfl
          · simp [applyOp, start_tracking, ha, hp] at hr'
            subst hr'
            exact hnn r rfl
    · intro r' s hr' hs
      cases st with
      | none =>
        simp [applyOp, start_tracking, freshRecord] at hr'
        subst hr'
        simp at hs
        simp [opNext]
        omega
      | some r =>
        by_cases ha : r.is_active
        · simp [applyOp, start_tracking, ha] at hr'
          subst hr'
          have := hsb r s rfl hs
          simp [opOk] at hok
          simp [opNext]
          omega
        · by_cases hp : r.is_paused
          · simp [applyOp, start_tracking, ha, hp] at hr'
            subst hr'
            have := hsb r s rfl hs
            simp [opOk] at hok
            simp [opNext]
            omega
          · simp [applyOp, start_tracking, ha, hp] at hr'
            subst hr'
            simp at hs
            simp [opNext]
            omega
  | stop now =>
    constructor
    · intro r' hr'
      cases st with
      | none => simp [applyOp, stop_tracking] at hr'
      | some r =>
        by_cases ha : r.is_active
        · cases hl : r.last_start with
          | none =>
            simp [applyOp, stop_tracking, ha, hl] at hr'
            subst hr'
            exact hnn r rfl
          | some s =>
            simp [applyOp, stop_tracking, ha, hl] at hr'
            subst hr'
            have h0 := hnn r rfl
            have h1 := hsb r s rfl hl
            simp [opOk] at hok
            simp
            omega
        · simp [applyOp, stop_tracking, ha] at hr'
          exact hr' ▸ hnn r rfl
    · intro r' s hr' hs
      cases st with
      | none => simp [applyOp, stop_tracking] at hr'
      | some r =>
        simp [opOk] at hok
        by_cases ha : r.is_active
        · cases hl : r.last_start with
          | none =>
            simp [applyOp, stop_tracking, ha, hl] at hr'
            subst hr'
            simp [hl] at hs
          | some s0 =>
            simp [applyOp, stop_tracking, ha, hl] at hr'
            subst hr'
            simp [hl] at hs
            have := hsb r s0 rfl hl
            simp [opNext]
            omega
        · simp [applyOp, stop_tracking, ha] at hr'
          subst hr'
          have := hsb r s rfl hs
          simp [opNext]
          omega
  | pause now =>
    constructor
    · intro r' hr'
      cases st with
      | none => simp [applyOp, pause_tracking] at hr'
      | some r =>
        by_cases ha : r.is_active
        · cases hl : r.last_start with
          | none =>
            simp [applyOp, pause_tracking, ha, hl] at hr'
            subst hr'
            exact hnn r rfl
          | some s =>
            simp [applyOp, pause_tracking, ha, hl] at hr'
            subst hr'
            have h0 := hnn r rfl
            have h1 := hsb r s rfl hl
            simp [opOk] at hok
            simp
            omega
        · simp [applyOp, pause_tracking, ha] at hr'
          exact hr' ▸ hnn r rfl
    · intro r' s hr' hs
      cases st with
      | none => simp [applyOp, pause_tracking] at hr'
      | some r =>
        simp [opOk] at hok
        by_cases ha : r.is_active
        · cases hl : r.last_start with
          | none =>
            simp [applyOp, pause_tracking, ha, hl] at hr'
            subst hr'
            simp [hl] at hs
          | some s0 =>
            simp [applyOp, pause_tracking, ha, hl] at hr'
            subst hr'
            simp [hl] at hs
            have := hsb r s0 rfl hl
            simp [opNext]
            omega
        · simp [applyOp, pause_tracking, ha] at hr'
          subst hr'
          have := hsb r s rfl hs
          simp [opNext]
          omega
  | resume now =>
    constructor
    · intro r' hr'
      cases st with
      | none => simp [applyOp, resume_tracking] at hr'
      | some r =>
        by_cases hp : r.is_paused
        · simp [applyOp, resume_tracking, hp] at hr'
          subst hr'
          exact hnn r rfl
        · simp [applyOp, resume_tracking, hp] at hr'
          exact hr' ▸ hnn r rfl
    · intro r' s hr' hs
      cases st with
      | none => simp [applyOp, resume_tracking] at hr'
      | some r =>
        simp [opOk] at hok
        by_cases hp : r.is_paused
        · simp [applyOp, resume_tracking, hp] at hr'
          subst hr'
          simp at hs
          simp [opNext]
          omega
        · simp [applyOp, resume_tracking, hp] at hr'
          subst hr'
          have := hsb r s rfl hs
          simp [opNext]
          omega
  | addMinutes nm m =>
    constructor
    · intro r' hr'
      cases st with
      | none =>
        simp [applyOp, add_minutes, freshRecord] at hr'
        subst hr'
        simp [opOk] at hok
        simp [freshRecord]
        omega
      | some r =>
        simp [applyOp, add_minutes] at hr'
        subst hr'
        have h0 := hnn r rfl
        simp [opOk] at hok
        simp
        omega
    · intro r' s hr' hs
      cases st with
      | none =>
        simp [applyOp, add_minutes, freshRecord] at hr'
        subst hr'
        simp [freshRecord] at hs
      | some r =>
        simp [applyOp, add_minutes] at hr'
        subst hr'
        exact hsb r s rfl hs
  | subtractMinutes m =>
    constructor
    · intro r' hr'
      cases st with
      | none => simp [applyOp, subtract_minutes] at hr'
      | some r =>
        simp [applyOp, subtract_minutes] at hr'
        subst hr'
        simp
    · intro r' s hr' hs
      cases st with
      | none => simp [applyOp, subtract_minutes] at hr'
      | some r =>
        simp [applyOp, subtract_minutes] at hr'
        subst hr'
        exact hsb r s rfl hs
  | reset =>
    constructor
    · intro r' hr'
      cases st with
      | none => simp [applyOp, reset_user_time] at hr'
      | some r =>
        simp [applyOp, reset_user_time] at hr'
        subst hr'
        simp
    · intro r' s hr' hs
      cases st with
      | none => simp [applyOp, reset_user_time] at hr'
      | some r =>
        simp [applyOp, reset_user_time] at hr'
        subst hr'
        simp at hs
  | cancel =>
    constructor
    · intro r' hr'
      cases st with
      | none => simp [applyOp, cancel_user_tracking] at hr'
      | some r => simp [applyOp, cancel_user_tracking] at hr'
    · intro r' s hr' hs
      cases st with
      | none => simp [applyOp, cancel_user_tracking] at hr'
      | some r => simp [applyOp, cancel_user_tracking] at hr'

theorem step_mono (t : Int) (op : Op) (st : Option UserRecord)
    (hok : opOk t op) (hsb : StartsBounded t st) (hnd : decOp op = false)
    (r r' : UserRecord) (hst : st = some r) (hst' : applyOp st op = some r') :
    r.total_time ≤ r'.total_time := by
  subst hst
  cases op with
  | start now nm =>
    by_cases ha : r.is_active
    · simp [applyOp, start_tracking, ha] at hst'
      simp [← hst']
    · by_cases hp : r.is_paused
      · simp [applyOp, start_tracking, ha, hp] at hst'
        simp [← hst']
      · simp [applyOp, start_tracking, ha, hp] at hst'
        simp [← hst']
  | stop now =>
    simp [opOk] at hok
    by_cases ha : r.is_active
    · cases hl : r.last_start with
      | none =>
        simp [applyOp, stop_tracking, ha, hl] at hst'
        simp [← hst']
      | some s =>
        simp [applyOp, stop_tracking, ha, hl] at hst'
        have := hsb r s rfl hl
        simp [← hst']
        omega
    · simp [applyOp, stop_tracking, ha] at hst'
      simp [← hst']
  | pause now =>
    simp [opOk] at hok
    by_cases ha : r.is_active
    · cases hl : r.last_start with
      | none =>
        simp [applyOp, pause_tracking, ha, hl] at hst'
        simp [← hst']
      | some s =>
        simp [applyOp, pause_tracking, ha, hl] at hst'
        have := hsb r s rfl hl
        simp [← hst']
        omega
    · simp [applyOp, pause_tracking, ha] at hst'
      simp [← hst']
  | resume now =>
    by_cases hp : r.is_paused
    · simp [applyOp, resume_tracking, hp] at hst'
      simp [← hst']
    · simp [applyOp, resume_tracking, hp] at hst'
      simp [← hst']
  | addMinutes nm m =>
    simp [opOk] at hok
    simp [applyOp, add_minutes] at hst'
    simp [← hst']
    omega
  | subtractMinutes m => simp [decOp] at hnd
  | reset => simp [decOp] at hnd
  | cancel => simp [applyOp, cancel_user_tracking] at hst'

/-- Counterexample to claim C3: `add_minutes` with -5 minutes on a fresh
record drives the stored total to -300, below 0, and this decrease comes
from `addMinutes`, not from a reset or subtract operation. -/
theorem negative_add_makes_total_negative :
    get_total_time 0 (run [Op.addMinutes "a" (-5)] none) = -300 ∧
    get_total_time 0 (run [Op.addMinutes "a" (-5)] none) < 0 := by
  refine ⟨by decide, by decide⟩

/-- Claim C3 as amended: along any trace whose clock readings are
non-decreasing and whose `addMinutes` arguments are non-negative, the
stored total stays non-negative; and any single operation other than
`subtractMinutes` and `reset` (under the same side conditions) never
lowers the stored total of a surviving record.  Without the non-negativity
restriction on `addMinutes` the property fails. -/
theorem total_time_nonneg_of_valid_trace :
    (∀ (ops : List Op) (t : Int) (st : Option UserRecord),
      ValidTrace t ops → TotalNonneg st → StartsBounded t st →
      TotalNonneg (run ops st)) ∧
    (∀ (op : Op) (t : Int) (st : Option UserRecord) (r r' : UserRecord),
      opOk t op → StartsBounded t st → decOp op = false →
      st = some r → applyOp st op = some r' →
      r.total_time ≤ r'.total_time) := by
  constructor
  · intro ops
    induction ops with
    | nil => intro t st _ hnn _; exact hnn
    | cons op rest ih =>
      intro t st hv hnn hsb
      obtain ⟨hok, hrest⟩ := hv
      obtain ⟨hnn2, hsb2⟩ := step_inv t op st hok hnn hsb
      exact ih (opNext t op) (applyOp st op) hrest hnn2 hsb2
  · intro op t st r r' hok hsb hnd hst hst'
    exact step_mono t op st hok hsb hnd r r' hst hst'

/-- Witness for C3 (amended): the total after a well-timed
start/pause/resume/stop trace from the empty store is non-negative. -/
theorem total_time_nonneg_of_valid_trace_witness :
    TotalNonneg (run [Op.start 0 "a", Op.pause 7, Op.resume 9, Op.stop 12] none) :=
  total_time_nonneg_of_valid_trace.1
    [Op.start 0 "a", Op.pause 7, Op.resume 9, Op.stop 12] 0 none
    (by norm_num [ValidTrace, opOk, opNext])
    (fun r h => nomatch h) (fun r s h => nomatch h)

/-- The phase after one session operation, as the specification describes
the state machine; operations that do not fit the phase change nothing. -/
def nextPhase : Phase → Op → Phase
  | Phase.idle, Op.start now _ => Phase.running now
  | Phase.running _, Op.pause _ => Phase.paused
  | Phase.running _, Op.stop _ => Phase.idle
  | Phase.paused, Op.resume now => Phase.running now
  | p, _ => p

/-- The Running-interval duration one operation closes: a pause or stop
in the Running phase contributes the elapsed interval, everything else
contributes nothing. -/
def contrib : Phase → Op → Int
  | Phase.running s, Op.pause now => now - s
  | Phase.running s, Op.stop now => now - s
  | _, _ => 0

theorem specRunningSum_cons (p : Phase) (op : Op) (rest : List Op) :
    specRunningSum p (op :: rest) =
      contrib p op + specRunningSum (nextPhase p op) rest := by
  cases p <;> cases op <;> simp [specRunningSum, contrib, nextPhase]

/-- Correspondence between a record state and a phase: Idle means no record
or a record that is neither active nor paused, Running since `s` means an
active unpaused record whose `last_start` is `s`, Paused means an inactive
paused record. -/
def AgreesWith (st : Option UserRecord) : Phase → Prop
  | Phase.idle => st = none ∨
      ∃ r, st = some r ∧ r.is_active = false ∧ r.is_paused = false
  | Phase.running s =>
      ∃ r, st = some r ∧ r.is_active = true ∧ r.is_paused = false ∧
        r.last_start = some s
  | Phase.paused =>
      ∃ r, st = some r ∧ r.is_active = false ∧ r.is_paused = true

theorem sess_step (p : Phase) (op : Op) (st : Option UserRecord)
    (hop : isSessOp op = true) (hag : AgreesWith st p) :
    bankedOf (applyOp st op) = bankedOf st + contrib p op ∧
    AgreesWith (applyOp st op) (nextPhase p op) := by
  cases p with
  | idle =>
    rcases hag with hnone | ⟨r, hst, ha, hp⟩
    · subst hnone
      cases op with
      | start now nm =>
        constructor
        · simp [applyOp, start_tracking, freshRecord, bankedOf, contrib]
        · exact ⟨_, rfl, by simp [start_tracking, freshRecord], by simp [start_tracking, freshRecord], by simp [start_tracking, freshRecord]⟩
      | stop now =>
        exact ⟨by simp [applyOp, stop_tracking, bankedOf, contrib], Or.inl rfl⟩
      | pause now =>
        exact ⟨by simp [applyOp, pause_tracking, bankedOf, contrib], Or.inl rfl⟩
      | resume now =>
        exact ⟨by simp [applyOp, resume_tracking, bankedOf, contrib], Or.inl rfl⟩
      | addMinutes nm m => simp [isSessOp] at hop
      | subtractMinutes m => simp [isSessOp] at hop
      | reset => simp [isSessOp] at hop
      | cancel => simp [isSessOp] at hop
    · subst hst
      cases op with
      | start now nm =>
        constructor
        · simp [applyOp, start_tracking, ha, hp, bankedOf, contrib]
        · have hm : applyOp (some r) (Op.start now nm) =
              some { r with is_active := true, is_paused := false,
                            last_start := some now, name := nm } := by
            simp [applyOp, start_tracking, ha, hp]
          rw [hm]
          exact ⟨_, rfl, rfl, rfl, rfl⟩
      | stop now =>
        exact ⟨by simp [applyOp, stop_tracking, ha, bankedOf, contrib],
               Or.inr ⟨r, by simp [applyOp, stop_tracking, ha], ha, hp⟩⟩
      | pause now =>
        exact ⟨by simp [applyOp, pause_tracking, ha, bankedOf, contrib],
               Or.inr ⟨r, by simp [applyOp, pause_tracking, ha], ha, hp⟩⟩
      | resume now =>
        exact ⟨by simp [applyOp, resume_tracking, hp, bankedOf, contrib],
               Or.inr ⟨r, by simp [applyOp, resume_tracking, hp], ha, hp⟩⟩
      | addMinutes nm m => simp [isSessOp] at hop
      | subtractMinutes m => simp [isSessOp] at hop
      | reset => simp [isSessOp] at hop
      | cancel => simp [isSessOp] at hop
  | running s =>
    obtain ⟨r, hst, ha, hp, hl⟩ := hag
    subst hst
    cases op with
    | start now nm =>
      constructor
      · simp [applyOp, start_tracking, ha, bankedOf, contrib]
      · exact ⟨r, by simp [applyOp, start_tracking, ha], ha, hp, hl⟩
    | stop now =>
      constructor
      · simp [applyOp, stop_tracking, ha, hl, bankedOf, contrib]
      · have hm : applyOp (some r) (Op.stop now) =
            some { r with total_time := r.total_time + (now - s),
                          is_active := false, is_paused := false,
                          sessions := r.sessions ++
                            [{ start := some s, finish := now, duration := now - s }] } := by
          simp [applyOp, stop_tracking, ha, hl]
        rw [hm]
        exact Or.inr ⟨_, rfl, rfl, rfl⟩
    | pause now =>
      constructor
      · simp [applyOp, pause_tracking, ha, hl, bankedOf, contrib]
      · have hm : applyOp (some r) (Op.pause now) =
            some { r with total_time := r.total_time + (now - s),
                          is_active := false, is_paused := true,
                          pause_start := some now,
                          pause_count := r.pause_count + 1 } := by
          simp [applyOp, pause_tracking, ha, hl]
        rw [hm]
        exact ⟨_, rfl, rfl, rfl⟩
    | resume now =>
      constructor
      · simp [applyOp, resume_tracking, hp, bankedOf, contrib]
      · exact ⟨r, by simp [applyOp, resume_tracking, hp], ha, hp, hl⟩
    | addMinutes nm m => simp [isSessOp] at hop
    | subtractMinutes m => simp [isSessOp] at hop
    | reset => simp [isSessOp] at hop
    | cancel => simp [isSessOp] at hop
  | paused =>
    obtain ⟨r, hst, ha, hp⟩ := hag
    subst hst
    cases op with
    | start now nm =>
      constructor
      · simp [applyOp, start_tracking, ha, hp, bankedOf, contrib]
      · exact ⟨r, by simp [applyOp, start_tracking, ha, hp], ha, hp⟩
    | stop now =>
      constructor
      · simp [applyOp, stop_tracking, ha, bankedOf, contrib]
      · exact ⟨r, by simp [applyOp, stop_tracking, ha], ha, hp⟩
    | pause now =>
      constructor
      · simp [applyOp, pause_tracking, ha, bankedOf, contrib]
      · exact ⟨r, by simp [applyOp, pause_tracking, ha], ha, hp⟩
    | resume now =>
      constructor
      · simp [applyOp, resume_tracking, hp, bankedOf, contrib]
      · have hm : applyOp (some r) (Op.resume now) =
            some { r with is_active := true, is_paused := false,
                          last_start := some now, pause_start := none } := by
          simp [applyOp, resume_tracking, hp]
        rw [hm]
        exact ⟨_, rfl, rfl, rfl, rfl⟩
    | addMinutes nm m => simp [isSessOp] at hop
    | subtractMinutes m => simp [isSessOp] at hop
    | reset => simp [isSessOp] at hop
    | cancel => simp [isSessOp] at hop

theorem run_sess (ops : List Op) : ∀ (p : Phase) (st : Option UserRecord),
    ops.all isSessOp = true → AgreesWith st p →
    bankedOf (run ops st) = bankedOf st + specRunningSum p ops := by
  induction ops with
  | nil => intro p st _ _; simp [run, specRunningSum]
  | cons op rest ih =>
    intro p st hall hag
    rw [run_cons, specRunningSum_cons]
    simp only [List.all_cons, Bool.and_eq_true] at hall
    obtain ⟨h1, h2⟩ := sess_step p op st hall.1 hag
    rw [ih (nextPhase p op) (applyOp st op) hall.2 h2, h1]
    ring

/-- Claim C5: for every sequence of session operations (start, pause,
resume, stop, with explicit timestamps) executed from the empty store, the
stored total afterwards equals the spec-side sum of the durations of all
Running intervals of the sequence — time spent Paused contributes
nothing. -/
theorem stop_total_is_running_sum (ops : List Op)
    (hall : ops.all isSessOp = true) (r : UserRecord)
    (hr : run ops none = some r) :
    r.total_time = specRunningSum Phase.idle ops := by
  have h := run_sess ops Phase.idle none hall (Or.inl rfl)
  rw [hr] at h
  simpa [bankedOf] using h

/-- Witness for C5: start at 0, pause at 10, resume at 20, stop at 35
banks 10 + 15 = 25 seconds, the paused interval [10, 20] contributing
nothing. -/
theorem stop_total_is_running_sum_witness :
    ({ name := "a", total_time := 25,
       sessions := [{ start := some 20, finish := 35, duration := 15 }],
       is_active := false, is_paused := false, pause_count := 1,
       notified_milestones := [], milestone_completed := false,
       last_start := some 20, pause_start := none,
       last_milestone_check := none } : UserRecord).total_time
      = specRunningSum Phase.idle
          [Op.start 0 "a", Op.pause 10, Op.resume 20, Op.stop 35] :=
  stop_total_is_running_sum
    [Op.start 0 "a", Op.pause 10, Op.resume 20, Op.stop 35]
    (by decide) _ (by decide)

/-- The record of a user whose banked total jumped from 0 straight to 7500
seconds (2h 5m), as `add_minutes` with 125 minutes produces on a fresh
user. -/
def rec7500 : UserRecord := { freshRecord "u" with total_time := 7500 }

/-- Claim C6: on any record whose derived total is 7500 seconds with no
milestone yet notified (as after `bankedSeconds` jumps 0 to 7500 via
`addMinutes` with no scanner tick in between), one catch-up sweep notifies
exactly once — the 2-hour threshold only — marks both thresholds 3600 and
7200 notified in the same update, and leaves the user not Running
(it invokes stop whatever the current state was), for either role flag. -/
theorem catchup_sweep_7500 (now : Int) (r : UserRecord) (role : Bool)
    (htot : get_total_time now (some r) = 7500)
    (hnot : r.notified_milestones = []) :
    (check_missing_milestones_user now role (some r)).2 = [2] ∧
    (check_missing_milestones_user now role (some r)).1 ≠ none ∧
    ∀ r2, (check_missing_milestones_user now role (some r)).1 = some r2 →
      r2.notified_milestones = [3600, 7200] ∧ r2.is_active = false := by
  have emiss : ((hoursUpTo (Int.fdiv (7500 : Int) 3600).toNat).filter
      (fun h => !(([] : List Int).contains (Int.ofNat h * 3600)))) = [1, 2] := by decide
  have hlast : ([1, 2] : List Nat).getLast? = some 2 := by decide
  have hfold : List.foldl
      (fun acc h => if List.contains acc (Int.ofNat h * 3600) then acc
                    else acc ++ [Int.ofNat h * 3600]) ([] : List Int) [1, 2]
      = [3600, 7200] := by decide
  simp only [check_missing_milestones_user, htot, hnot]
  rw [emiss, hlast, hfold]
  cases role <;> cases hra : r.is_active <;> cases hl : r.last_start <;>
    simp [stop_tracking, hra, hl]

/-- Witness for C6: the sweep on the record produced by adding 125 minutes
to a fresh user emits exactly the 2-hour notification. -/
theorem catchup_sweep_7500_witness :
    (check_missing_milestones_user 0 false (some rec7500)).2 = [2] :=
  (catchup_sweep_7500 0 rec7500 false (by decide) (by decide)).1

/-- Claim C9: `format_time_human` maps 0 and -5 to the zero-seconds string
"0 Segundos", and 3661 to "1 Hora, 1 Minuto, 1 Segundo" — hours, minutes,
seconds in that order, each pluralized exactly when its count is not 1. -/
theorem format_time_human_examples :
    format_time_human 0 = "0 Segundos" ∧
    format_time_human (-5) = "0 Segundos" ∧
    format_time_human 3661 = "1 Hora, 1 Minuto, 1 Segundo" :=
  ⟨rfl, rfl, rfl⟩

/-- Claim C8: for non-negative input, `calculate_credits` awards 0 below
3600 seconds, 3 in [3600, 7200), and 5 from 7200 on, independently of the
role flag. -/
theorem calculate_credits_spec (s : Int) (b : Bool) (hs : 0 ≤ s) :
    (s < 3600 → calculate_credits s b = 0) ∧
    (3600 ≤ s → s < 7200 → calculate_credits s b = 3) ∧
    (7200 ≤ s → calculate_credits s b = 5) ∧
    (∀ b2, calculate_credits s b = calculate_credits s b2) := by
  unfold calculate_credits
  refine ⟨?_, ?_, ?_, fun b2 => rfl⟩ <;> intros <;> split <;> omega

/-- Witness for C8 at `s = 3700`. -/
theorem calculate_credits_spec_witness : calculate_credits 3700 true = 3 :=
  (calculate_credits_spec 3700 true (by decide)).2.1 (by decide) (by decide)

/-- Claim C10: whenever `start_tracking` returns false, the record state is
left exactly as it was (in particular the display name keeps its old value)
and `save_data` is not reached. -/
theorem start_tracking_failure_no_change (now : Int) (user_name : String)
    (st : Option UserRecord) (hfail : (start_tracking now user_name st).ok = false) :
    (start_tracking now user_name st).state = st ∧
    (start_tracking now user_name st).saved = false := by
  cases st with
  | none =>
    exfalso
    simp [start_tracking, freshRecord] at hfail
  | some r =>
    unfold start_tracking at hfail ⊢
    by_cases ha : r.is_active <;> by_cases hp : r.is_paused <;>
      simp [ha, hp] at hfail ⊢

/-- Witness for C10: a start on an already-active record changes nothing. -/
theorem start_tracking_failure_no_change_witness :
    (start_tracking 5 "b" (some recActive)).state = some recActive ∧
    (start_tracking 5 "b" (some recActive)).saved = false :=
  start_tracking_failure_no_change 5 "b" (some recActive) (by decide)

/-- Claim C7: `get_total_time` returns 0 for an absent record, the banked
total plus `now - last_start` for a Running record, and exactly the banked
total for a record that is not Running (paused time contributes nothing);
it is a pure read returning an integer, touching no state. -/
theorem get_total_time_spec (now : Int) (r : UserRecord) :
    get_total_time now none = 0 ∧
    (∀ s, r.is_active = true → r.last_start = some s →
      get_total_time now (some r) = r.total_time + (now - s)) ∧
    (r.is_active = false → get_total_time now (some r) = r.total_time) := by
  refine ⟨rfl, ?_, ?_⟩
  · intro s ha hl
    simp [get_total_time, ha, hl]
  · intro ha
    simp [get_total_time, ha]

/-- Witness for C7: a record running since instant 30, read at instant 100. -/
theorem get_total_time_spec_witness :
    get_total_time 100 (some { rec1000 with is_active := true, last_start := some 30 })
      = 1000 + (100 - 30) :=
  (get_total_time_spec 100 { rec1000 with is_active := true, last_start := some 30 }).2.1
    30 (by decide) (by decide)

/-- Counterexample to claim C2: non-positive minutes are not ignored.
`add_minutes` with -5 minutes lowers a banked total of 1000 to 700, and
`subtract_minutes` with -5 minutes raises it to 1300. -/
theorem add_subtract_negative_minutes_change_total :
    (add_minutes "a" (-5) (some rec1000)).state ≠ some rec1000 ∧
    get_total_time 0 ((add_minutes "a" (-5) (some rec1000)).state) = 700 ∧
    (subtract_minutes (-5) (some rec1000)).state ≠ some rec1000 ∧
    get_total_time 0 ((subtract_minutes (-5) (some rec1000)).state) = 1300 := by
  refine ⟨by decide, by decide, by decide, by decide⟩

/-- Claim C2 as amended: for a record with no live session, `add_minutes`
changes the total by exactly `minutes * 60` for EVERY minutes argument
(non-positive ones included, so a negative argument lowers it), and
`subtract_minutes` sets the total to `max 0 (total - minutes * 60)` for
every argument — hence for positive minutes it never goes below 0.  The
ledger does not ignore non-positive inputs; positivity is checked only by
the command handlers. -/
theorem add_subtract_minutes_exact (user_name : String) (m : Int) (now : Int)
    (r : UserRecord) (hidle : r.is_active = false) :
    get_total_time now ((add_minutes user_name m (some r)).state)
      = get_total_time now (some r) + m * 60 ∧
    get_total_time now ((subtract_minutes m (some r)).state)
      = max 0 (get_total_time now (some r) - m * 60) ∧
    0 ≤ get_total_time now ((subtract_minutes m (some r)).state) := by
  refine ⟨?_, ?_, ?_⟩ <;>
    simp [add_minutes, subtract_minutes, get_total_time, hidle] <;> omega

/-- Witness for C2 (amended) at -5 minutes on a banked total of 1000. -/
theorem add_subtract_minutes_exact_witness :
    get_total_time 0 ((add_minutes "a" (-5) (some rec1000)).state)
      = get_total_time 0 (some rec1000) + (-5) * 60 ∧
    get_total_time 0 ((subtract_minutes (-5) (some rec1000)).state)
      = max 0 (get_total_time 0 (some rec1000) - (-5) * 60) ∧
    0 ≤ get_total_time 0 ((subtract_minutes (-5) (some rec1000)).state) :=
  add_subtract_minutes_exact "a" (-5) 0 rec1000 (by decide)

/-- Counterexample to claim C1: the third pause does NOT make
`pause_tracking` remove the record or signal anything special — it returns
the same `true` as an ordinary pause and leaves the record in place with
`pause_count = 3`. -/
theorem pause_third_keeps_record :
    (pause_tracking 50 recTwoPauses).ok = true ∧
    (pause_tracking 50 recTwoPauses).state ≠ none ∧
    get_pause_count ((pause_tracking 50 recTwoPauses).state) = 3 := by
  refine ⟨by decide, by decide, by decide⟩

/-- Claim C1 as amended: the removal at three pauses is performed by the
caller, not by the ledger operation.  `pause_tracking` only increments the
count and reports an ordinary successful pause; the `pausar_tiempo` handler
then reads the count and, when it has reached 3, itself calls
`cancel_user_tracking` (removing the record) and emits the auto-cancelled
notice instead of the pause notice; below 3 it emits the pause notice and
keeps the record. -/
theorem pausar_tiempo_autocancel (now : Int) (r : UserRecord)
    (ha : r.is_active = true) :
    (2 ≤ r.pause_count →
      (pausar_tiempo now (some r)).1 = none ∧
      (pausar_tiempo now (some r)).2 = PauseOutcome.autoCancelled) ∧
    (r.pause_count < 2 →
      (pausar_tiempo now (some r)).1 ≠ none ∧
      (pausar_tiempo now (some r)).2 = PauseOutcome.pausedNotice) := by
  constructor
  · intro hc
    have hcond : 3 ≤ r.pause_count + 1 := by omega
    cases hl : r.last_start <;>
      simp [pausar_tiempo, pause_tracking, get_pause_count, cancel_user_tracking,
            ha, hl, hcond]
  · intro hc
    have hcond : ¬3 ≤ r.pause_count + 1 := by omega
    cases hl : r.last_start <;>
      simp [pausar_tiempo, pause_tracking, get_pause_count, cancel_user_tracking,
            ha, hl, hcond]

/-- Witness for C1 (amended): the third pause through the handler removes
the record and reports auto-cancellation. -/
theorem pausar_tiempo_autocancel_witness :
    (pausar_tiempo 50 (some { recActive with pause_count := 2, last_start := some 40 })).1
      = none ∧
    (pausar_tiempo 50 (some { recActive with pause_count := 2, last_start := some 40 })).2
      = PauseOutcome.autoCancelled :=
  (pausar_tiempo_autocancel 50 { recActive with pause_count := 2, last_start := some 40 }
    (by decide)).1 (by decide)
